/-
Verification of the AutoInsight AI report generator (src/main.py) against its
specification.  The Python source is shallowly embedded: text is `List Char`
(wrapped in `String` at the API), fallible code returns `Except PyErr`, and
the external collaborators (network, PDF engine) are oracles passed in as
parameters.
-/
import Mathlib

set_option maxRecDepth 10000

namespace AutoInsight

/-! ## Python string primitives used by the source -/

/-- Whitespace characters stripped by Python `str.strip()` (ASCII subset,
which is all that occurs in this pipeline). -/
def pyIsSpace (c : Char) : Bool :=
  c == ' ' || c == '\t' || c == '\n' || c == '\r' || c == '\x0b' || c == '\x0c'

/-- Python `str.strip()`: drop leading and trailing whitespace. -/
def pyStrip (l : List Char) : List Char :=
  (l.dropWhile pyIsSpace).rdropWhile pyIsSpace

/-! ## Text Normalizer: `clean` (main.py lines 54-55)
`re.sub(r"\n{2,}", "\n", text).strip()` -/

/-- Effect of `re.sub(r"\n{2,}", "\n", ·)`: every maximal run of newlines is
collapsed to a single newline (runs of length one are left as they are, which
coincides with collapsing). -/
def collapseNL : List Char → List Char
  | [] => []
  | [c] => [c]
  | a :: b :: rest =>
    if a = '\n' ∧ b = '\n' then collapseNL (b :: rest)
    else a :: collapseNL (b :: rest)

def cleanL (l : List Char) : List Char := pyStrip (collapseNL l)

/-- `clean` from main.py line 54. -/
def clean (s : String) : String := ⟨cleanL s.data⟩

/-- `true` iff the text contains no two consecutive newline characters. -/
def noDoubleNLb : List Char → Bool
  | [] => true
  | [_] => true
  | a :: b :: rest => (!(a == '\n' && b == '\n')) && noDoubleNLb (b :: rest)

/-- `true` iff the text neither starts nor ends with a whitespace character. -/
def noEdgeWS (l : List Char) : Bool :=
  (match l.head? with
   | some c => !pyIsSpace c
   | none => true) &&
  (match l.getLast? with
   | some c => !pyIsSpace c
   | none => true)

theorem collapseNL_head : ∀ (l : List Char) (c : Char),
    (collapseNL (c :: l)).head? = some c := by
  intro l
  induction l with
  | nil => intro c; rfl
  | cons b rest ih =>
    intro c
    by_cases h : c = '\n' ∧ b = '\n'
    · rw [collapseNL, if_pos h, ih b]
      rw [h.1, h.2]
    · rw [collapseNL, if_neg h]
      rfl

theorem noDoubleNLb_cons_of_head {a : Char} {l : List Char}
    (h1 : ∀ b, l.head? = some b → (!(a == '\n' && b == '\n')) = true)
    (h2 : noDoubleNLb l = true) : noDoubleNLb (a :: l) = true := by
  cases l with
  | nil => rfl
  | cons b rest =>
    rw [noDoubleNLb, Bool.and_eq_true]
    exact ⟨h1 b rfl, h2⟩

theorem noDoubleNLb_collapseNL : ∀ l : List Char, noDoubleNLb (collapseNL l) = true
  | [] => rfl
  | [c] => rfl
  | a :: b :: rest => by
    have ih := noDoubleNLb_collapseNL (b :: rest)
    by_cases h : a = '\n' ∧ b = '\n'
    · rw [collapseNL, if_pos h]
      exact ih
    · rw [collapseNL, if_neg h]
      refine noDoubleNLb_cons_of_head ?_ ih
      intro c hc
      rw [collapseNL_head (rest) b] at hc
      cases hc
      simp only [Bool.not_eq_true', Bool.and_eq_false_iff]
      by_cases ha : a = '\n'
      · right
        apply beq_eq_false_iff_ne.mpr
        intro hb
        exact h ⟨ha, hb⟩
      · left
        exact beq_eq_false_iff_ne.mpr ha

theorem collapseNL_eq_self : ∀ l : List Char, noDoubleNLb l = true → collapseNL l = l
  | [], _ => rfl
  | [c], _ => rfl
  | a :: b :: rest, h => by
    rw [noDoubleNLb, Bool.and_eq_true] at h
    have hab : ¬(a = '\n' ∧ b = '\n') := by
      intro hc
      rw [hc.1, hc.2] at h
      simp at h
    rw [collapseNL, if_neg hab, collapseNL_eq_self (b :: rest) h.2]

theorem noDoubleNLb_tail {a : Char} {l : List Char}
    (h : noDoubleNLb (a :: l) = true) : noDoubleNLb l = true := by
  cases l with
  | nil => rfl
  | cons b rest =>
    rw [noDoubleNLb, Bool.and_eq_true] at h
    exact h.2

theorem noDoubleNLb_append_left : ∀ {l r : List Char},
    noDoubleNLb (l ++ r) = true → noDoubleNLb l = true
  | [], _, _ => rfl
  | [_], _, _ => rfl
  | a :: b :: tl, r, h => by
    rw [List.cons_append, List.cons_append] at h
    rw [noDoubleNLb, Bool.and_eq_true] at h ⊢
    refine ⟨h.1, ?_⟩
    have := noDoubleNLb_append_left (l := b :: tl) (r := r)
    rw [List.cons_append] at this
    exact this h.2

theorem noDoubleNLb_dropWhile (p : Char → Bool) :
    ∀ l : List Char, noDoubleNLb l = true → noDoubleNLb (l.dropWhile p) = true := by
  intro l
  induction l with
  | nil => intro _; rfl
  | cons a tl ih =>
    intro h
    rw [List.dropWhile_cons]
    by_cases hp : p a = true
    · rw [if_pos hp]
      exact ih (noDoubleNLb_tail h)
    · rw [if_neg hp]
      exact h

theorem noDoubleNLb_rdropWhile (p : Char → Bool) (l : List Char)
    (h : noDoubleNLb l = true) : noDoubleNLb (l.rdropWhile p) = true := by
  obtain ⟨t, ht⟩ := List.rdropWhile_prefix p l
  rw [← ht] at h
  exact noDoubleNLb_append_left h

theorem noDoubleNLb_pyStrip (l : List Char) (h : noDoubleNLb l = true) :
    noDoubleNLb (pyStrip l) = true :=
  noDoubleNLb_rdropWhile _ _ (noDoubleNLb_dropWhile _ _ h)

theorem pyStrip_head_not_space (l : List Char) :
    ∀ c, (pyStrip l).head? = some c → pyIsSpace c = false := by
  intro c hc
  unfold pyStrip at hc
  obtain ⟨t, ht⟩ := List.rdropWhile_prefix pyIsSpace (l.dropWhile pyIsSpace)
  have hne : (l.dropWhile pyIsSpace).rdropWhile pyIsSpace ≠ [] := by
    intro he
    rw [he] at hc
    cases hc
  have hd : (l.dropWhile pyIsSpace).head? = some c := by
    rw [← ht]
    cases hx : (l.dropWhile pyIsSpace).rdropWhile pyIsSpace with
    | nil => exact absurd hx hne
    | cons y ys =>
      rw [hx] at hc
      cases hc
      rfl
  have hdw := List.head_dropWhile_not pyIsSpace l
  cases hx : l.dropWhile pyIsSpace with
  | nil => rw [hx] at hd; cases hd
  | cons y ys =>
    rw [hx] at hd
    cases hd
    rw [hx] at hdw
    simpa using hdw

theorem pyStrip_last_not_space (l : List Char) :
    ∀ c, (pyStrip l).getLast? = some c → pyIsSpace c = false := by
  intro c hc
  unfold pyStrip at hc
  have hne : (l.dropWhile pyIsSpace).rdropWhile pyIsSpace ≠ [] := by
    intro he
    rw [he] at hc
    cases hc
  have hlast := List.rdropWhile_last_not pyIsSpace (l.dropWhile pyIsSpace) hne
  rw [List.getLast?_eq_getLast _ hne] at hc
  cases hc
  simpa using hlast

theorem dropWhile_eq_self_of_head (p : Char → Bool) (l : List Char)
    (h : ∀ c, l.head? = some c → p c = false) : l.dropWhile p = l := by
  cases l with
  | nil => rfl
  | cons a tl =>
    rw [List.dropWhile_cons, if_neg]
    rw [h a rfl]
    simp

theorem rdropWhile_eq_self_of_last (p : Char → Bool) (l : List Char)
    (h : ∀ c, l.getLast? = some c → p c = false) : l.rdropWhile p = l := by
  rw [List.rdropWhile_eq_self_iff]
  intro hl
  rw [h (l.getLast hl) (List.getLast?_eq_getLast _ hl)]
  simp

theorem pyStrip_eq_self (l : List Char)
    (h1 : ∀ c, l.head? = some c → pyIsSpace c = false)
    (h2 : ∀ c, l.getLast? = some c → pyIsSpace c = false) : pyStrip l = l := by
  unfold pyStrip
  rw [dropWhile_eq_self_of_head _ _ h1, rdropWhile_eq_self_of_last _ _ h2]

theorem pyStrip_idem (l : List Char) : pyStrip (pyStrip l) = pyStrip l :=
  pyStrip_eq_self _ (pyStrip_head_not_space l) (pyStrip_last_not_space l)

theorem cleanL_idem (l : List Char) : cleanL (cleanL l) = cleanL l := by
  unfold cleanL
  rw [collapseNL_eq_self _ (noDoubleNLb_pyStrip _ (noDoubleNLb_collapseNL l)),
    pyStrip_idem]

/-! ## Section Parser (main.py lines 104-124)

The parser scans `raw.split("\n")` keeping a nullable `current` section.
The `sections` dict with its two string values and three list values is a
record; `sections[current].append(...)` on a string value raises
`AttributeError`, which the embedding surfaces as `Except.error`. -/

inductive PyErr
  | attributeError
  | indexError
deriving DecidableEq

inductive SectionKey
  | overview
  | domain
  | enables
  | limitations
  | actions
deriving DecidableEq

/-- The five fixed keys of the `sections` dict (main.py lines 104-110). -/
def labelKey (l : List Char) : Option SectionKey :=
  if l = "OVERVIEW".data then some .overview
  else if l = "DOMAIN".data then some .domain
  else if l = "WHAT THIS DATA ENABLES".data then some .enables
  else if l = "LIMITATIONS".data then some .limitations
  else if l = "PROFIT IMPROVEMENT ACTIONS".data then some .actions
  else none

/-- Which section values are Python lists (vs free-text strings). -/
def isListKey : SectionKey → Bool
  | .enables => true
  | .limitations => true
  | .actions => true
  | _ => false

structure ParseState where
  overview : List Char
  domain : List Char
  enables : List (List Char)
  limitations : List (List Char)
  actions : List (List Char)
  current : Option SectionKey
deriving DecidableEq

def initState : ParseState := ⟨[], [], [], [], [], none⟩

/-- Python `line.endswith(":")`. -/
def endsWithColon (l : List Char) : Bool :=
  match l.getLast? with
  | some c => c == ':'
  | none => false

/-- Python `line.startswith(("-", "•", "*"))`. -/
def startsWithBullet (l : List Char) : Bool :=
  match l with
  | [] => false
  | c :: _ => c == '-' || c == '•' || c == '*'

/-- Membership in the char set of Python `line.strip("-•* ")`. -/
def inStripSet (c : Char) : Bool :=
  c == '-' || c == '•' || c == '*' || c == ' '

/-- Python `line.strip("-•* ").strip()` (main.py line 120). -/
def stripEntry (l : List Char) : List Char :=
  pyStrip ((l.dropWhile inStripSet).rdropWhile inStripSet)

/-- `sections[current].append(e)` for the three list-valued sections. -/
def appendEntry (st : ParseState) (k : SectionKey) (e : List Char) : ParseState :=
  match k with
  | .enables => { st with enables := st.enables ++ [e] }
  | .limitations => { st with limitations := st.limitations ++ [e] }
  | .actions => { st with actions := st.actions ++ [e] }
  | _ => st

/-- `sections[current] += " " + line` for the two free-text sections. -/
def appendFree (st : ParseState) (k : SectionKey) (t : List Char) : ParseState :=
  match k with
  | .overview => { st with overview := st.overview ++ ' ' :: t }
  | .domain => { st with domain := st.domain ++ ' ' :: t }
  | _ => st

/-- Routing of a non-header line (main.py lines 118-124), on the already
stripped line.  A bulleted line under a free-text section calls `.append` on a
`str`, raising `AttributeError`. -/
def contentRoute (st : ParseState) (line : List Char) : Except PyErr ParseState :=
  match st.current with
  | none => .ok st
  | some k =>
    if startsWithBullet line then
      if isListKey k then .ok (appendEntry st k (stripEntry line))
      else .error .attributeError
    else
      if isListKey k then .ok st
      else .ok (appendFree st k line)

/-- One iteration of the `for line in raw.split("\n")` loop
(main.py lines 113-124). -/
def parseStep (st : ParseState) (rawLine : List Char) : Except PyErr ParseState :=
  let line := pyStrip rawLine
  if endsWithColon line then
    match labelKey line.dropLast with
    | some k => .ok { st with current := some k }
    | none => contentRoute st line
  else contentRoute st line

def parseLines : ParseState → List (List Char) → Except PyErr ParseState
  | st, [] => .ok st
  | st, l :: ls =>
    match parseStep st l with
    | .ok st2 => parseLines st2 ls
    | .error e => .error e

/-- Python `raw.split("\n")`. -/
def splitNL : List Char → List (List Char)
  | [] => [[]]
  | c :: rest =>
    if c = '\n' then [] :: splitNL rest
    else
      match splitNL rest with
      | [] => [[c]]
      | l :: ls => (c :: l) :: ls

structure NarrativeSections where
  overview : String
  domain : String
  enables : List String
  limitations : List String
  actions : List String
deriving DecidableEq

def finishState (st : ParseState) : NarrativeSections :=
  { overview := ⟨st.overview⟩
  , domain := ⟨st.domain⟩
  , enables := st.enables.map (fun l => (⟨l⟩ : String))
  , limitations := st.limitations.map (fun l => (⟨l⟩ : String))
  , actions := st.actions.map (fun l => (⟨l⟩ : String)) }

/-- The Section Parser: the loop of main.py lines 112-124 run over
`raw.split("\n")` from the all-default `sections` dict. -/
def parse (raw : String) : Except PyErr NarrativeSections :=
  match parseLines initState (splitNL raw.data) with
  | .ok st => .ok (finishState st)
  | .error e => .error e

def defaultNS : NarrativeSections := ⟨"", "", [], [], []⟩

/-- A stripped line that sets the current section pointer. -/
def isHeaderB (line : List Char) : Bool :=
  endsWithColon line && (labelKey line.dropLast).isSome

/-! ### Parser lemmas -/

/-- Python `"\n".join`, used to build parser inputs from line lists. -/
def joinNL : List (List Char) → List Char
  | [] => []
  | [l] => l
  | l :: l2 :: ls => l ++ '\n' :: joinNL (l2 :: ls)

theorem splitNL_no_nl (l : List Char) (h : ∀ c ∈ l, c ≠ '\n') :
    splitNL l = [l] := by
  induction l with
  | nil => rfl
  | cons c rest ih =>
    simp only [splitNL]
    rw [if_neg (h c (List.mem_cons_self c rest)),
      ih (fun x hx => h x (List.mem_cons_of_mem c hx))]

theorem splitNL_append (A B : List Char) (h : ∀ c ∈ A, c ≠ '\n') :
    splitNL (A ++ '\n' :: B) = A :: splitNL B := by
  induction A with
  | nil =>
    simp only [List.nil_append, splitNL]
    simp
  | cons a A' ih =>
    simp only [List.cons_append, splitNL, List.append_eq]
    rw [if_neg (h a (List.mem_cons_self a A')),
      ih (fun x hx => h x (List.mem_cons_of_mem a hx))]

theorem splitNL_joinNL : ∀ L : List (List Char), L ≠ [] →
    (∀ l ∈ L, ∀ c ∈ l, c ≠ '\n') → splitNL (joinNL L) = L
  | [], h, _ => absurd rfl h
  | [l], _, h => by
    rw [joinNL]
    exact splitNL_no_nl l (h l (List.mem_cons_self l []))
  | l :: l2 :: ls, _, h => by
    rw [joinNL, splitNL_append _ _ (h l (List.mem_cons_self l _)),
      splitNL_joinNL (l2 :: ls) (List.cons_ne_nil l2 ls)
        (fun x hx => h x (List.mem_cons_of_mem l hx))]

theorem cons_ne_of_head {c d : Char} (xs ys : List Char) (h : c ≠ d) :
    c :: xs ≠ d :: ys := by
  intro he
  injection he with h1 _
  exact h h1

theorem labelKey_head_marker {c : Char} (xs : List Char)
    (hm : (c == '-' || c == '•' || c == '*') = true) :
    labelKey (c :: xs) = none := by
  have hc : c ≠ 'O' ∧ c ≠ 'D' ∧ c ≠ 'W' ∧ c ≠ 'L' ∧ c ≠ 'P' := by
    simp only [Bool.or_eq_true, beq_iff_eq] at hm
    rcases hm with (h | h) | h <;> subst h <;>
      exact ⟨by decide, by decide, by decide, by decide, by decide⟩
  unfold labelKey
  split_ifs with h1 h2 h3 h4 h5
  · exact absurd (show c = 'O' from Option.some.inj (congrArg List.head? h1)) hc.1
  · exact absurd (show c = 'D' from Option.some.inj (congrArg List.head? h2)) hc.2.1
  · exact absurd (show c = 'W' from Option.some.inj (congrArg List.head? h3)) hc.2.2.1
  · exact absurd (show c = 'L' from Option.some.inj (congrArg List.head? h4)) hc.2.2.2.1
  · exact absurd (show c = 'P' from Option.some.inj (congrArg List.head? h5)) hc.2.2.2.2
  · rfl

theorem parseLines_cons_ok {st st' : ParseState} {l : List Char}
    (ls : List (List Char)) (h : parseStep st l = .ok st') :
    parseLines st (l :: ls) = parseLines st' ls := by
  rw [parseLines, h]

/-- Step behavior on a bulleted line while a list section is current
(main.py lines 119-120). -/
theorem parseStep_bullet (st : ParseState) (rawLine : List Char) (k : SectionKey)
    (hcur : st.current = some k) (hk : isListKey k = true)
    (hb : startsWithBullet (pyStrip rawLine) = true) :
    parseStep st rawLine = .ok (appendEntry st k (stripEntry (pyStrip rawLine))) := by
  have hroute : contentRoute st (pyStrip rawLine) =
      .ok (appendEntry st k (stripEntry (pyStrip rawLine))) := by
    unfold contentRoute
    rw [hcur]
    simp only [hb, hk, if_true]
  unfold parseStep
  by_cases hcolon : endsWithColon (pyStrip rawLine) = true
  · rw [if_pos hcolon]
    cases hline : pyStrip rawLine with
    | nil =>
      rw [hline] at hb
      cases hb
    | cons c rest =>
      have hm : (c == '-' || c == '•' || c == '*') = true := by
        rw [hline] at hb
        exact hb
      cases rest with
      | nil =>
        simp only [List.dropLast]
        rw [show labelKey [] = none from rfl]
        rw [← hline]
        exact hroute
      | cons b rest' =>
        simp only [List.dropLast]
        rw [labelKey_head_marker _ hm]
        rw [← hline]
        exact hroute
  · rw [if_neg hcolon]
    exact hroute

/-- Step behavior on a non-bulleted, non-header line while a free-text
section is current (main.py line 124). -/
theorem parseStep_free (st : ParseState) (rawLine : List Char) (k : SectionKey)
    (hcur : st.current = some k) (hk : isListKey k = false)
    (hb : startsWithBullet (pyStrip rawLine) = false)
    (hh : isHeaderB (pyStrip rawLine) = false) :
    parseStep st rawLine = .ok (appendFree st k (pyStrip rawLine)) := by
  have hroute : contentRoute st (pyStrip rawLine) =
      .ok (appendFree st k (pyStrip rawLine)) := by
    unfold contentRoute
    rw [hcur]
    simp only [hb, hk, if_false, Bool.false_eq_true, if_neg (fun h => h)]
  unfold parseStep
  by_cases hcolon : endsWithColon (pyStrip rawLine) = true
  · rw [if_pos hcolon]
    unfold isHeaderB at hh
    rw [hcolon, Bool.true_and] at hh
    cases hlk : labelKey (pyStrip rawLine).dropLast with
    | none => exact hroute
    | some k2 =>
      rw [hlk] at hh
      cases hh
  · rw [if_neg hcolon]
    exact hroute

/-- Lines arriving while no section pointer is set are dropped
(main.py line 118: `if current:`). -/
theorem parseStep_noCurrent (st : ParseState) (rawLine : List Char)
    (hcur : st.current = none) (hh : isHeaderB (pyStrip rawLine) = false) :
    parseStep st rawLine = .ok st := by
  have hroute : contentRoute st (pyStrip rawLine) = .ok st := by
    unfold contentRoute
    rw [hcur]
  unfold parseStep
  by_cases hcolon : endsWithColon (pyStrip rawLine) = true
  · rw [if_pos hcolon]
    unfold isHeaderB at hh
    rw [hcolon, Bool.true_and] at hh
    cases hlk : labelKey (pyStrip rawLine).dropLast with
    | none => exact hroute
    | some k2 =>
      rw [hlk] at hh
      cases hh
  · rw [if_neg hcolon]
    exact hroute

/-! ### Well-formed bullet blocks -/

/-- One of the three recognized bullet markers. -/
def isMarker (c : Char) : Bool := c == '-' || c == '•' || c == '*'

def goodEdge (c : Char) : Bool := !(inStripSet c) && !(pyIsSpace c)

/-- A bullet entry that survives the parser's stripping unchanged: nonempty,
newline-free, and not starting or ending in a marker or whitespace char. -/
def goodEntry (e : List Char) : Bool :=
  !(e.isEmpty) &&
  (match e.head? with
   | some c => goodEdge c
   | none => false) &&
  (match e.getLast? with
   | some c => goodEdge c
   | none => false) &&
  e.all (fun x => !(x == '\n'))

def goodPair (p : Char × List Char) : Bool := isMarker p.1 && goodEntry p.2

/-- The text line `m + " " + e` for a marker `m` and entry `e`. -/
def bulletLines (ps : List (Char × List Char)) : List (List Char) :=
  ps.map (fun p => p.1 :: ' ' :: p.2)

theorem goodEntry_ne_nil {e : List Char} (h : goodEntry e = true) : e ≠ [] := by
  intro he
  subst he
  cases h

theorem goodEntry_head {e : List Char} (h : goodEntry e = true) :
    ∀ c, e.head? = some c → goodEdge c = true := by
  intro c hc
  unfold goodEntry at h
  simp only [Bool.and_eq_true] at h
  rw [hc] at h
  exact h.1.1.2

theorem goodEntry_last {e : List Char} (h : goodEntry e = true) :
    ∀ c, e.getLast? = some c → goodEdge c = true := by
  intro c hc
  unfold goodEntry at h
  simp only [Bool.and_eq_true] at h
  rw [hc] at h
  exact h.1.2

theorem goodEntry_no_nl {e : List Char} (h : goodEntry e = true) :
    ∀ c ∈ e, c ≠ '\n' := by
  intro c hc
  unfold goodEntry at h
  simp only [Bool.and_eq_true, List.all_eq_true] at h
  have := h.2 c hc
  simpa using this

theorem goodEdge_not_space {c : Char} (h : goodEdge c = true) :
    pyIsSpace c = false := by
  unfold goodEdge at h
  simp only [Bool.and_eq_true, Bool.not_eq_true'] at h
  exact h.2

theorem goodEdge_not_strip {c : Char} (h : goodEdge c = true) :
    inStripSet c = false := by
  unfold goodEdge at h
  simp only [Bool.and_eq_true, Bool.not_eq_true'] at h
  exact h.1

theorem isMarker_not_space {m : Char} (h : isMarker m = true) :
    pyIsSpace m = false := by
  unfold isMarker at h
  simp only [Bool.or_eq_true, beq_iff_eq] at h
  rcases h with (h | h) | h <;> subst h <;> decide

theorem isMarker_ne_nl {m : Char} (h : isMarker m = true) : m ≠ '\n' := by
  unfold isMarker at h
  simp only [Bool.or_eq_true, beq_iff_eq] at h
  rcases h with (h | h) | h <;> subst h <;> decide

theorem bulletLine_getLast? {m : Char} {e : List Char} (he : e ≠ []) :
    (m :: ' ' :: e).getLast? = e.getLast? := by
  have : m :: ' ' :: e = [m, ' '] ++ e := rfl
  rw [this, List.getLast?_append_of_ne_nil _ he]

theorem bulletLine_pyStrip {m : Char} {e : List Char}
    (hm : isMarker m = true) (he : goodEntry e = true) :
    pyStrip (m :: ' ' :: e) = m :: ' ' :: e := by
  apply pyStrip_eq_self
  · intro c hc
    cases hc
    exact isMarker_not_space hm
  · intro c hc
    rw [bulletLine_getLast? (goodEntry_ne_nil he)] at hc
    exact goodEdge_not_space (goodEntry_last he c hc)

theorem bulletLine_startsWithBullet {m : Char} (e : List Char)
    (hm : isMarker m = true) : startsWithBullet (m :: ' ' :: e) = true := hm

theorem bulletLine_stripEntry {m : Char} {e : List Char}
    (hm : isMarker m = true) (he : goodEntry e = true) :
    stripEntry (m :: ' ' :: e) = e := by
  have hms : inStripSet m = true := by
    unfold isMarker at hm
    simp only [Bool.or_eq_true, beq_iff_eq] at hm
    rcases hm with (h | h) | h <;> subst h <;> decide
  have hdw : (m :: ' ' :: e).dropWhile inStripSet = e := by
    rw [List.dropWhile_cons, if_pos hms, List.dropWhile_cons,
      if_pos (show inStripSet ' ' = true from rfl)]
    exact dropWhile_eq_self_of_head _ _
      (fun c hc => goodEdge_not_strip (goodEntry_head he c hc))
  unfold stripEntry
  rw [hdw, rdropWhile_eq_self_of_last _ _
    (fun c hc => goodEdge_not_strip (goodEntry_last he c hc))]
  exact pyStrip_eq_self _
    (fun c hc => goodEdge_not_space (goodEntry_head he c hc))
    (fun c hc => goodEdge_not_space (goodEntry_last he c hc))

theorem runBullets_enables : ∀ (ps : List (Char × List Char)) (st : ParseState)
    (rest : List (List Char)), st.current = some .enables →
    (∀ p ∈ ps, goodPair p = true) →
    parseLines st (bulletLines ps ++ rest) =
      parseLines { st with enables := st.enables ++ ps.map Prod.snd } rest
  | [], st, rest, _, _ => by
    simp [bulletLines]
  | (m, e) :: tl, st, rest, hcur, hps => by
    have hgp : goodPair (m, e) = true := hps (m, e) (List.mem_cons_self _ _)
    have hmhe : isMarker m = true ∧ goodEntry e = true := by
      unfold goodPair at hgp
      simp only [Bool.and_eq_true] at hgp
      exact hgp
    have hm := hmhe.1
    have he := hmhe.2
    have hstep : parseStep st (m :: ' ' :: e) =
        .ok { st with enables := st.enables ++ [e] } := by
      rw [parseStep_bullet st _ .enables hcur rfl
        (by rw [bulletLine_pyStrip hm he]; exact bulletLine_startsWithBullet e hm)]
      rw [bulletLine_pyStrip hm he, bulletLine_stripEntry hm he]
      rfl
    show parseLines st ((m :: ' ' :: e) :: (bulletLines tl ++ rest)) = _
    rw [parseLines_cons_ok _ hstep,
      runBullets_enables tl { st with enables := st.enables ++ [e] } rest hcur (fun p hp => hps p (List.mem_cons_of_mem _ hp))]
    simp [List.append_assoc]

theorem runBullets_limitations : ∀ (ps : List (Char × List Char)) (st : ParseState)
    (rest : List (List Char)), st.current = some .limitations →
    (∀ p ∈ ps, goodPair p = true) →
    parseLines st (bulletLines ps ++ rest) =
      parseLines { st with limitations := st.limitations ++ ps.map Prod.snd } rest
  | [], st, rest, _, _ => by
    simp [bulletLines]
  | (m, e) :: tl, st, rest, hcur, hps => by
    have hgp : goodPair (m, e) = true := hps (m, e) (List.mem_cons_self _ _)
    have hmhe : isMarker m = true ∧ goodEntry e = true := by
      unfold goodPair at hgp
      simp only [Bool.and_eq_true] at hgp
      exact hgp
    have hm := hmhe.1
    have he := hmhe.2
    have hstep : parseStep st (m :: ' ' :: e) =
        .ok { st with limitations := st.limitations ++ [e] } := by
      rw [parseStep_bullet st _ .limitations hcur rfl
        (by rw [bulletLine_pyStrip hm he]; exact bulletLine_startsWithBullet e hm)]
      rw [bulletLine_pyStrip hm he, bulletLine_stripEntry hm he]
      rfl
    show parseLines st ((m :: ' ' :: e) :: (bulletLines tl ++ rest)) = _
    rw [parseLines_cons_ok _ hstep,
      runBullets_limitations tl { st with limitations := st.limitations ++ [e] } rest hcur (fun p hp => hps p (List.mem_cons_of_mem _ hp))]
    simp [List.append_assoc]

theorem runBullets_actions : ∀ (ps : List (Char × List Char)) (st : ParseState)
    (rest : List (List Char)), st.current = some .actions →
    (∀ p ∈ ps, goodPair p = true) →
    parseLines st (bulletLines ps ++ rest) =
      parseLines { st with actions := st.actions ++ ps.map Prod.snd } rest
  | [], st, rest, _, _ => by
    simp [bulletLines]
  | (m, e) :: tl, st, rest, hcur, hps => by
    have hgp : goodPair (m, e) = true := hps (m, e) (List.mem_cons_self _ _)
    have hmhe : isMarker m = true ∧ goodEntry e = true := by
      unfold goodPair at hgp
      simp only [Bool.and_eq_true] at hgp
      exact hgp
    have hm := hmhe.1
    have he := hmhe.2
    have hstep : parseStep st (m :: ' ' :: e) =
        .ok { st with actions := st.actions ++ [e] } := by
      rw [parseStep_bullet st _ .actions hcur rfl
        (by rw [bulletLine_pyStrip hm he]; exact bulletLine_startsWithBullet e hm)]
      rw [bulletLine_pyStrip hm he, bulletLine_stripEntry hm he]
      rfl
    show parseLines st ((m :: ' ' :: e) :: (bulletLines tl ++ rest)) = _
    rw [parseLines_cons_ok _ hstep,
      runBullets_actions tl { st with actions := st.actions ++ [e] } rest hcur (fun p hp => hps p (List.mem_cons_of_mem _ hp))]
    simp [List.append_assoc]

/-! ### Free-text lines and the leading-space invariant -/

/-- A free-text content line that reaches `sections[current] += " " + line`
unchanged: already stripped, newline-free, not bulleted, not a header. -/
def goodFree (l : List Char) : Bool :=
  decide (pyStrip l = l) && !(startsWithBullet l) && !(isHeaderB l) &&
    l.all (fun x => !(x == '\n'))

theorem goodFree_pyStrip {l : List Char} (h : goodFree l = true) :
    pyStrip l = l := by
  unfold goodFree at h
  simp only [Bool.and_eq_true, decide_eq_true_eq] at h
  exact h.1.1.1

theorem goodFree_not_bullet {l : List Char} (h : goodFree l = true) :
    startsWithBullet l = false := by
  unfold goodFree at h
  simp only [Bool.and_eq_true, Bool.not_eq_true'] at h
  exact h.1.1.2

theorem goodFree_not_header {l : List Char} (h : goodFree l = true) :
    isHeaderB l = false := by
  unfold goodFree at h
  simp only [Bool.and_eq_true, Bool.not_eq_true'] at h
  exact h.1.2

theorem goodFree_no_nl {l : List Char} (h : goodFree l = true) :
    ∀ c ∈ l, c ≠ '\n' := by
  intro c hc
  unfold goodFree at h
  simp only [Bool.and_eq_true, List.all_eq_true] at h
  have := h.2 c hc
  simpa using this

/-- The free-text value is either still empty or begins with a space. -/
def spaceOK : List Char → Bool
  | [] => true
  | c :: _ => c == ' '

def stateSpaceOK (st : ParseState) : Bool :=
  spaceOK st.overview && spaceOK st.domain

theorem spaceOK_append (a b : List Char) (h : spaceOK a = true) :
    spaceOK (a ++ ' ' :: b) = true := by
  cases a with
  | nil => rfl
  | cons c tl => exact h

theorem contentRoute_spaceOK {st st' : ParseState} {line : List Char}
    (h : contentRoute st line = .ok st') (hs : stateSpaceOK st = true) :
    stateSpaceOK st' = true := by
  unfold contentRoute at h
  cases hcur : st.current with
  | none =>
    rw [hcur] at h
    cases h
    exact hs
  | some k =>
    simp only [hcur] at h
    by_cases hbul : startsWithBullet line = true
    · rw [if_pos hbul] at h
      by_cases hlk : isListKey k = true
      · rw [if_pos hlk] at h
        cases h
        cases k <;> simp only [appendEntry] <;> exact hs
      · rw [if_neg hlk] at h
        cases h
    · rw [if_neg hbul] at h
      by_cases hlk : isListKey k = true
      · rw [if_pos hlk] at h
        cases h
        exact hs
      · rw [if_neg hlk] at h
        cases h
        unfold stateSpaceOK at hs ⊢
        simp only [Bool.and_eq_true] at hs
        cases k with
        | overview =>
          simp only [appendFree, Bool.and_eq_true]
          exact ⟨spaceOK_append _ _ hs.1, hs.2⟩
        | domain =>
          simp only [appendFree, Bool.and_eq_true]
          exact ⟨hs.1, spaceOK_append _ _ hs.2⟩
        | enables => simp [isListKey] at hlk
        | limitations => simp [isListKey] at hlk
        | actions => simp [isListKey] at hlk

theorem parseStep_spaceOK {st st' : ParseState} {l : List Char}
    (h : parseStep st l = .ok st') (hs : stateSpaceOK st = true) :
    stateSpaceOK st' = true := by
  unfold parseStep at h
  by_cases hcolon : endsWithColon (pyStrip l) = true
  · rw [if_pos hcolon] at h
    cases hlk : labelKey (pyStrip l).dropLast with
    | some k =>
      rw [hlk] at h
      cases h
      exact hs
    | none =>
      rw [hlk] at h
      exact contentRoute_spaceOK h hs
  · rw [if_neg hcolon] at h
    exact contentRoute_spaceOK h hs

theorem parseLines_spaceOK : ∀ (L : List (List Char)) (st st' : ParseState),
    parseLines st L = .ok st' → stateSpaceOK st = true → stateSpaceOK st' = true
  | [], st, st', h, hs => by
    rw [parseLines] at h
    cases h
    exact hs
  | l :: ls, st, st', h, hs => by
    rw [parseLines] at h
    cases hstep : parseStep st l with
    | ok st2 =>
      rw [hstep] at h
      exact parseLines_spaceOK ls st2 st' h (parseStep_spaceOK hstep hs)
    | error e =>
      rw [hstep] at h
      cases h

theorem parse_spaceOK (raw : String) (ns : NarrativeSections)
    (h : parse raw = .ok ns) :
    (ns.overview = "" ∨ ns.overview.data.head? = some ' ') ∧
    (ns.domain = "" ∨ ns.domain.data.head? = some ' ') := by
  unfold parse at h
  cases hp : parseLines initState (splitNL raw.data) with
  | error e =>
    rw [hp] at h
    cases h
  | ok st =>
    rw [hp] at h
    cases h
    have hinv := parseLines_spaceOK _ _ _ hp rfl
    unfold stateSpaceOK at hinv
    simp only [Bool.and_eq_true] at hinv
    constructor
    · cases hov : st.overview with
      | nil =>
        left
        exact congrArg (fun l => (⟨l⟩ : String)) hov
      | cons c tl =>
        right
        have := hinv.1
        rw [hov] at this
        have hc : c = ' ' := by simpa [spaceOK] using this
        show (⟨st.overview⟩ : String).data.head? = some ' '
        rw [hov]
        exact congrArg some hc
    · cases hdm : st.domain with
      | nil =>
        left
        exact congrArg (fun l => (⟨l⟩ : String)) hdm
      | cons c tl =>
        right
        have := hinv.2
        rw [hdm] at this
        have hc : c = ' ' := by simpa [spaceOK] using this
        show (⟨st.domain⟩ : String).data.head? = some ' '
        rw [hdm]
        exact congrArg some hc

/-! ## Model Client: `llama` (main.py lines 36-52)

The network is an oracle `Nat → AttemptResult` giving the outcome of the
i-th `requests.post` call: `fail` for any exception caught by the bare
`except`, `ok resp` for a JSON reply whose optional `"response"` field is
`resp`.  The loop `for _ in range(3)` makes at most three calls and
`return r.json().get("response", "")` / final `return ""` map outcomes to
text. -/

inductive AttemptResult
  | fail
  | ok (resp : Option String)

def llamaLoop (oracle : Nat → AttemptResult) : Nat → Nat → String × Nat
  | _, 0 => ("", 0)
  | i, k + 1 =>
    match oracle i with
    | .fail =>
      let r := llamaLoop oracle (i + 1) k
      (r.1, r.2 + 1)
    | .ok resp => (resp.getD "", 1)

/-- The text returned by `llama`. -/
def llama (oracle : Nat → AttemptResult) : String := (llamaLoop oracle 0 3).1

/-- How many `requests.post` calls `llama` makes. -/
def llamaCalls (oracle : Nat → AttemptResult) : Nat := (llamaLoop oracle 0 3).2

/-! ## Statistics Summarizer (main.py lines 65-67)

A loaded dataset: column names, column dtypes, and rows of cells; a cell is
`none` for NaN/null, `some v` for an (opaque, string-rendered) value. -/

inductive ColType
  | numeric
  | text
deriving DecidableEq

structure DataFrame where
  colNames : List String
  colTypes : List ColType
  rows : List (List (Option String))

structure Stats where
  rows : Nat
  cols : Nat
  missing : Nat
  duplicates : Nat
deriving DecidableEq

/-- `df.duplicated().sum()`: pandas marks a row as duplicated iff an equal
row occurred earlier (keep="first").  `seen` holds the rows already scanned. -/
def dupCountAux (seen : List (List (Option String))) :
    List (List (Option String)) → Nat
  | [] => 0
  | r :: rest => (if r ∈ seen then 1 else 0) + dupCountAux (r :: seen) rest

def dupCount (rows : List (List (Option String))) : Nat := dupCountAux [] rows

/-- `rows, cols = df.shape; missing = df.isnull().sum().sum();
dup = df.duplicated().sum()`. -/
def summarize (df : DataFrame) : Stats :=
  { rows := df.rows.length
  , cols := df.colNames.length
  , missing := (df.rows.map (fun r => r.countP (fun c => c.isNone))).sum
  , duplicates := dupCount df.rows }

/-- Row `i` exactly duplicates an earlier row. -/
def isDupAt (rows : List (List (Option String))) (i : Nat) : Bool :=
  match rows.get? i with
  | some r => decide (r ∈ rows.take i)
  | none => false

/-- The number of rows that exactly duplicate an earlier row (the first
occurrence is not counted). -/
def specDupCount (rows : List (List (Option String))) : Nat :=
  (List.range rows.length).countP (isDupAt rows)

/-! ## Chart Builder (main.py lines 147-161) -/

/-- `df.select_dtypes(include=np.number).columns`. -/
def numericCols (df : DataFrame) : List String :=
  ((df.colNames.zip df.colTypes).filter
    (fun p => match p.2 with
      | ColType.numeric => true
      | ColType.text => false)).map Prod.fst

/-- main.py line 148: `"total_price" if "total_price" in df.columns else
df.select_dtypes(include=np.number).columns[-1]`.  Indexing `[-1]` into an
empty column index raises `IndexError`. -/
def resolveRevenueCol (df : DataFrame) : Except PyErr String :=
  if "total_price" ∈ df.colNames then .ok "total_price"
  else
    match (numericCols df).getLast? with
    | some c => .ok c
    | none => .error .indexError

inductive ChartKind
  | categoryBar
  | sizePie
deriving DecidableEq

/-- The chart artifacts appended to `charts_html` (main.py lines 152-161):
a grouped-sum bar chart if `"pizza_category"` is a column, then a pie chart
if `"pizza_size"` is a column.  The revenue column is resolved first,
unconditionally. -/
def buildCharts (df : DataFrame) : Except PyErr (List ChartKind) :=
  match resolveRevenueCol df with
  | .error e => .error e
  | .ok _ =>
    .ok ((if "pizza_category" ∈ df.colNames then [ChartKind.categoryBar] else []) ++
      (if "pizza_size" ∈ df.colNames then [ChartKind.sizePie] else []))

/-! ## Document Exporter (main.py lines 210-229)

The PDF engine is an oracle `String → Except Unit (List Nat)` (markup in,
bytes out or failure).  The export block is straight-line code:
`NamedTemporaryFile(delete=False)` creates the file, `pdfkit.from_string`
may raise (propagating out of the script), and `os.remove` runs only after
a successful render and download exposure. -/

inductive ExportOp
  | createTempFile
  | renderPdf
  | readBack
  | offerDownload
  | removeTempFile
deriving DecidableEq

/-- The operations executed by the export block, and the propagated error
if the rendering engine raised. -/
def exportRun (renderer : String → Except Unit (List Nat)) (markup : String) :
    List ExportOp × Option Unit :=
  match renderer markup with
  | .ok _bytes =>
    ([.createTempFile, .renderPdf, .readBack, .offerDownload, .removeTempFile], none)
  | .error e => ([.createTempFile, .renderPdf], some e)

/-- The temporary file persists after the run iff it was created and never
removed. -/
def tempFileRemains (r : List ExportOp × Option Unit) : Bool :=
  (r.1.contains ExportOp.createTempFile) && !(r.1.contains ExportOp.removeTempFile)

/-! ## Report Assembler (main.py lines 176-222)

`template.render(...)` with Jinja2 defaults: `{{ x }}` substitutes the
argument, the inline `for` blocks concatenate their bodies, and the single
trailing newline of the template source is dropped
(`keep_trailing_newline=False`). -/

def liItems (xs : List String) : String :=
  String.join (xs.map (fun i => "<li>" ++ i ++ "</li>"))

def chartBlocks (cs : List String) : String :=
  String.join (cs.map (fun c => c ++ "<br><br>"))

def renderReport (date overview domain : String)
    (enables limits actions : List String)
    (rows cols missing dup : Nat) (charts insights : List String) : String :=
  "\n<html>\n<body style=\"font-family:Arial;padding:40px;color:#475569\">\n<h1 style=\"color:#4f46e5\">AutoInsight AI \u2013 Professional Business EDA Report</h1>\n<p><b>Generated:</b> " ++
  date ++
  "</p>\n\n<h2>Dataset Understanding</h2>\n<p>" ++
  overview ++
  "</p>\n\n<h3>Domain</h3>\n<p>" ++
  domain ++
  "</p>\n\n<h3>What This Data Enables</h3>\n<ul>" ++
  liItems enables ++
  "</ul>\n\n<h3>Limitations</h3>\n<ul>" ++
  liItems limits ++
  "</ul>\n\n<h3>Profit Improvement Actions</h3>\n<ul>" ++
  liItems actions ++
  "</ul>\n\n<h2>Data Quality</h2>\n<p>Rows: " ++
  toString rows ++
  " | Columns: " ++
  toString cols ++
  "</p>\n<p>Missing: " ++
  toString missing ++
  " | Duplicates: " ++
  toString dup ++
  "</p>\n\n<h2>Visual Analysis</h2>\n" ++
  chartBlocks charts ++
  "\n\n<h2>Key Insights</h2>\n<ul>" ++
  liItems insights ++
  "</ul>\n</body>\n</html>"

/-- Boolean prefix test on character lists. -/
def isPrefB : List Char → List Char → Bool
  | [], _ => true
  | _ :: _, [] => false
  | a :: as, b :: bs => a == b && isPrefB as bs

/-- Boolean substring test on character lists. -/
def containsSubL (pat : List Char) : List Char → Bool
  | [] => isPrefB pat []
  | s@(_ :: rest) => isPrefB pat s || containsSubL pat rest

/-- `pat` occurs verbatim inside `s`. -/
def containsSub (pat s : String) : Bool := containsSubL pat.data s.data

/-! ### Duplicate-count characterization -/

theorem dupCountAux_countP : ∀ (l seen : List (List (Option String))),
    dupCountAux seen l = (List.range l.length).countP
      (fun i => match l.get? i with
        | some r => decide (r ∈ seen ∨ r ∈ l.take i)
        | none => false)
  | [], seen => by simp [dupCountAux]
  | r :: rest, seen => by
    rw [dupCountAux, dupCountAux_countP rest (r :: seen)]
    rw [List.length_cons, List.range_succ_eq_map, List.countP_cons, List.countP_map]
    have h0 : (match (r :: rest).get? 0 with
        | some x => decide (x ∈ seen ∨ x ∈ (r :: rest).take 0)
        | none => false) = decide (r ∈ seen) := by
      simp
    have hsucc : ∀ i ∈ List.range rest.length,
        (((fun j => match (r :: rest).get? j with
          | some x => decide (x ∈ seen ∨ x ∈ (r :: rest).take j)
          | none => false) ∘ Nat.succ) i = true) ↔
        ((fun j => match rest.get? j with
          | some x => decide (x ∈ r :: seen ∨ x ∈ rest.take j)
          | none => false) i = true) := by
      intro i _
      simp only [Function.comp_apply, List.get?_cons_succ, List.take_succ_cons]
      cases rest.get? i with
      | none => simp
      | some x =>
        simp only [decide_eq_true_eq, List.mem_cons]
        tauto
    rw [List.countP_congr hsucc, h0]
    cases hmem : decide (r ∈ seen) with
    | true =>
      have : (r ∈ seen) := of_decide_eq_true hmem
      rw [if_pos this]
      simp [Nat.add_comm]
    | false =>
      have : ¬(r ∈ seen) := of_decide_eq_false hmem
      rw [if_neg this]
      simp

theorem dupCount_eq_specDupCount (rows : List (List (Option String))) :
    dupCount rows = specDupCount rows := by
  unfold dupCount specDupCount
  rw [dupCountAux_countP]
  apply List.countP_congr
  intro i _
  unfold isDupAt
  cases rows.get? i with
  | none => rfl
  | some r =>
    simp

/-! ### The well-formed five-block scenario -/

def scenarioLines (ov dm : List Char) (es ls as2 : List (Char × List Char)) :
    List (List Char) :=
  ["OVERVIEW:".data, ov, "DOMAIN:".data, dm, "WHAT THIS DATA ENABLES:".data] ++
  bulletLines es ++ ["LIMITATIONS:".data] ++ bulletLines ls ++
  ["PROFIT IMPROVEMENT ACTIONS:".data] ++ bulletLines as2

/-- The model response with exactly one well-formed block per label. -/
def scenarioInput (ov dm : List Char) (es ls as2 : List (Char × List Char)) :
    String :=
  ⟨joinNL (scenarioLines ov dm es ls as2)⟩

theorem bulletLines_no_nl {ps : List (Char × List Char)}
    (hps : ∀ p ∈ ps, goodPair p = true) :
    ∀ l ∈ bulletLines ps, ∀ c ∈ l, c ≠ '\n' := by
  intro l hl c hc
  unfold bulletLines at hl
  obtain ⟨p, hp, hpl⟩ := List.mem_map.mp hl
  have hgp := hps p hp
  unfold goodPair at hgp
  simp only [Bool.and_eq_true] at hgp
  rw [← hpl] at hc
  simp only [List.mem_cons] at hc
  rcases hc with h | h | h
  · rw [h]
    exact isMarker_ne_nl hgp.1
  · rw [h]
    decide
  · exact goodEntry_no_nl hgp.2 c h

theorem scenarioLines_no_nl {ov dm : List Char} {es ls as2 : List (Char × List Char)}
    (hov : goodFree ov = true) (hdm : goodFree dm = true)
    (hes : ∀ p ∈ es, goodPair p = true) (hls : ∀ p ∈ ls, goodPair p = true)
    (has : ∀ p ∈ as2, goodPair p = true) :
    ∀ l ∈ scenarioLines ov dm es ls as2, ∀ c ∈ l, c ≠ '\n' := by
  intro l hl c hc
  unfold scenarioLines at hl
  rcases List.mem_append.mp hl with hrest | hba
  swap
  · exact bulletLines_no_nl has l hba c hc
  rcases List.mem_append.mp hrest with hrest | hy
  swap
  · rcases List.mem_cons.mp hy with h | h
    · subst h
      exact fun he => absurd (he ▸ hc) (by decide)
    · exact absurd h (List.not_mem_nil l)
  rcases List.mem_append.mp hrest with hrest | hbl
  swap
  · exact bulletLines_no_nl hls l hbl c hc
  rcases List.mem_append.mp hrest with hrest | hx
  swap
  · rcases List.mem_cons.mp hx with h | h
    · subst h
      exact fun he => absurd (he ▸ hc) (by decide)
    · exact absurd h (List.not_mem_nil l)
  rcases List.mem_append.mp hrest with h5 | hbe
  swap
  · exact bulletLines_no_nl hes l hbe c hc
  rcases List.mem_cons.mp h5 with h | h5
  · subst h
    exact fun he => absurd (he ▸ hc) (by decide)
  rcases List.mem_cons.mp h5 with h | h5
  · subst h
    exact goodFree_no_nl hov c hc
  rcases List.mem_cons.mp h5 with h | h5
  · subst h
    exact fun he => absurd (he ▸ hc) (by decide)
  rcases List.mem_cons.mp h5 with h | h5
  · subst h
    exact goodFree_no_nl hdm c hc
  rcases List.mem_cons.mp h5 with h | h5
  · subst h
    exact fun he => absurd (he ▸ hc) (by decide)
  exact absurd h5 (List.not_mem_nil l)

theorem parse_scenario (ov dm : List Char) (es ls as2 : List (Char × List Char))
    (hov : goodFree ov = true) (hdm : goodFree dm = true)
    (hes : ∀ p ∈ es, goodPair p = true) (hls : ∀ p ∈ ls, goodPair p = true)
    (has : ∀ p ∈ as2, goodPair p = true) :
    parse (scenarioInput ov dm es ls as2) =
      .ok ⟨⟨' ' :: ov⟩, ⟨' ' :: dm⟩,
        es.map (fun p => (⟨p.2⟩ : String)),
        ls.map (fun p => (⟨p.2⟩ : String)),
        as2.map (fun p => (⟨p.2⟩ : String))⟩ := by
  have hsplit : splitNL (scenarioInput ov dm es ls as2).data =
      scenarioLines ov dm es ls as2 := by
    show splitNL (joinNL _) = _
    exact splitNL_joinNL _ (by simp [scenarioLines])
      (scenarioLines_no_nl hov hdm hes hls has)
  have hshape : scenarioLines ov dm es ls as2 =
      "OVERVIEW:".data :: ov :: "DOMAIN:".data :: dm ::
      "WHAT THIS DATA ENABLES:".data ::
      (bulletLines es ++ ("LIMITATIONS:".data ::
        (bulletLines ls ++ ("PROFIT IMPROVEMENT ACTIONS:".data ::
          bulletLines as2)))) := by
    simp [scenarioLines]
  have e1 : parseStep initState ("OVERVIEW:".data) =
      .ok ⟨[], [], [], [], [], some .overview⟩ := rfl
  have e2 : parseStep (⟨[], [], [], [], [], some .overview⟩ : ParseState) ov =
      .ok ⟨' ' :: ov, [], [], [], [], some .overview⟩ := by
    rw [parseStep_free _ ov .overview rfl rfl
      (by rw [goodFree_pyStrip hov]; exact goodFree_not_bullet hov)
      (by rw [goodFree_pyStrip hov]; exact goodFree_not_header hov)]
    rw [goodFree_pyStrip hov]
    rfl
  have e3 : parseStep (⟨' ' :: ov, [], [], [], [], some .overview⟩ : ParseState)
      ("DOMAIN:".data) = .ok ⟨' ' :: ov, [], [], [], [], some .domain⟩ := rfl
  have e4 : parseStep (⟨' ' :: ov, [], [], [], [], some .domain⟩ : ParseState) dm =
      .ok ⟨' ' :: ov, ' ' :: dm, [], [], [], some .domain⟩ := by
    rw [parseStep_free _ dm .domain rfl rfl
      (by rw [goodFree_pyStrip hdm]; exact goodFree_not_bullet hdm)
      (by rw [goodFree_pyStrip hdm]; exact goodFree_not_header hdm)]
    rw [goodFree_pyStrip hdm]
    rfl
  have e5 : parseStep (⟨' ' :: ov, ' ' :: dm, [], [], [], some .domain⟩ : ParseState)
      ("WHAT THIS DATA ENABLES:".data) =
      .ok ⟨' ' :: ov, ' ' :: dm, [], [], [], some .enables⟩ := rfl
  unfold parse
  rw [hsplit, hshape]
  rw [parseLines_cons_ok _ e1, parseLines_cons_ok _ e2, parseLines_cons_ok _ e3,
    parseLines_cons_ok _ e4, parseLines_cons_ok _ e5]
  rw [runBullets_enables es _ _ rfl hes]
  show (match parseLines
      (⟨' ' :: ov, ' ' :: dm, es.map Prod.snd, [], [], some .enables⟩ : ParseState)
      ("LIMITATIONS:".data ::
        (bulletLines ls ++ ("PROFIT IMPROVEMENT ACTIONS:".data :: bulletLines as2)))
      with
    | .ok st => Except.ok (finishState st)
    | .error e => Except.error e) = _
  rw [parseLines_cons_ok _ (show parseStep
      (⟨' ' :: ov, ' ' :: dm, es.map Prod.snd, [], [], some .enables⟩ : ParseState)
      ("LIMITATIONS:".data) =
      .ok ⟨' ' :: ov, ' ' :: dm, es.map Prod.snd, [], [], some .limitations⟩ from rfl)]
  rw [runBullets_limitations ls _ _ rfl hls]
  show (match parseLines
      (⟨' ' :: ov, ' ' :: dm, es.map Prod.snd, ls.map Prod.snd, [],
        some .limitations⟩ : ParseState)
      ("PROFIT IMPROVEMENT ACTIONS:".data :: bulletLines as2) with
    | .ok st => Except.ok (finishState st)
    | .error e => Except.error e) = _
  rw [parseLines_cons_ok _ (show parseStep
      (⟨' ' :: ov, ' ' :: dm, es.map Prod.snd, ls.map Prod.snd, [],
        some .limitations⟩ : ParseState)
      ("PROFIT IMPROVEMENT ACTIONS:".data) =
      .ok ⟨' ' :: ov, ' ' :: dm, es.map Prod.snd, ls.map Prod.snd, [],
        some .actions⟩ from rfl)]
  rw [show bulletLines as2 = bulletLines as2 ++ [] from (List.append_nil _).symm]
  rw [runBullets_actions as2 _ _ rfl has]
  show Except.ok (finishState
      (⟨' ' :: ov, ' ' :: dm, es.map Prod.snd, ls.map Prod.snd, as2.map Prod.snd,
        some .actions⟩ : ParseState)) = _
  unfold finishState
  simp [List.map_map, Function.comp_def]

/-- A dataset with 100 rows, 5 columns, 5 missing cells and 3 duplicate
rows: a row of five nulls, 96 distinct order rows, and repeats of the first
three order rows. -/
def df100 : DataFrame :=
  ⟨["order_id", "pizza_name", "pizza_size", "quantity", "price"],
   [.text, .text, .text, .numeric, .numeric],
   [none, none, none, none, none] ::
     ((List.range 96).map (fun i =>
       [some (toString i), some "margherita", some "M", some "1", some "9.99"])) ++
     [[some (toString 0), some "margherita", some "M", some "1", some "9.99"],
      [some (toString 1), some "margherita", some "M", some "1", some "9.99"],
      [some (toString 2), some "margherita", some "M", some "1", some "9.99"]]⟩

/-! ## Claim theorems -/

/-- C1: the claim says the Section Parser never raises and that a bullet line
under a free-text section is discarded.  The code instead reaches
`sections[current].append(...)` with a `str` value and raises
`AttributeError`: on input `"OVERVIEW:\n- x"` the parser fails. -/
theorem parse_bullet_in_freetext_raises :
    parse "OVERVIEW:\n- x" = .error .attributeError := rfl

/-- C2: the claim says a dataset with no numeric column and no
`"total_price"` column yields no revenue column, zero charts and no crash.
The code instead evaluates `df.select_dtypes(include=np.number).columns[-1]`
on an empty index and raises `IndexError`, as revenue-column resolution shows
on a one-text-column dataset. -/
theorem chartbuilder_no_numeric_raises :
    resolveRevenueCol ⟨["name"], [.text], [[some "a"]]⟩ = .error .indexError ∧
    buildCharts ⟨["name"], [.text], [[some "a"]]⟩ = .error .indexError :=
  ⟨rfl, rfl⟩

/-- C3: on rendering-engine failure the error does propagate (first
conjunct: the run stops after `renderPdf` with the error), but `os.remove`
is straight-line code after `pdfkit.from_string`, so the temporary file
survives the failure path (second conjunct), contradicting the claim's
"removed on both paths"; the third conjunct shows the success path does
remove it. -/
theorem export_failure_leaves_tempfile :
    exportRun (fun _ => .error ()) "<html></html>" =
      ([.createTempFile, .renderPdf], some ()) ∧
    tempFileRemains (exportRun (fun _ => .error ()) "<html></html>") = true ∧
    tempFileRemains (exportRun (fun _ => .ok [37, 80, 68, 70]) "<html></html>") =
      false :=
  ⟨rfl, rfl, rfl⟩

/-- C4 counterexample: with the statistics of the claimed scenario
(100 rows, 5 columns, 5 missing, 3 duplicates) and a well-formed narrative,
the assembled report does not contain the single-line string
"Rows: 100 | Columns: 5 | Missing: 5 | Duplicates: 3" anywhere: the
template splits the four numbers over two paragraphs. -/
theorem report_dataquality_single_line_absent :
    summarize df100 = ⟨100, 5, 5, 3⟩ ∧
    containsSub "Rows: 100 | Columns: 5 | Missing: 5 | Duplicates: 3"
      (renderReport "2026-10-12 10:00" " Pizza sales." " Food retail."
        ["Track revenue"] ["No cost data"] ["Bundle deals"]
        (summarize df100).rows (summarize df100).cols (summarize df100).missing
        (summarize df100).duplicates
        ["<div>chart</div>"] ["Sales rise on weekends"]) = false := by
  have h : summarize df100 = ⟨100, 5, 5, 3⟩ := by decide
  refine ⟨h, ?_⟩
  rw [h]
  decide

/-- C4 amended: in that scenario the data-quality block renders the four
numbers as two adjacent paragraphs, "<p>Rows: 100 | Columns: 5</p>"
followed on the next line by "<p>Missing: 5 | Duplicates: 3</p>", each
verbatim. -/
theorem report_dataquality_two_lines_present :
    containsSub "<h2>Data Quality</h2>\n<p>Rows: 100 | Columns: 5</p>\n<p>Missing: 5 | Duplicates: 3</p>"
      (renderReport "2026-10-12 10:00" " Pizza sales." " Food retail."
        ["Track revenue"] ["No cost data"] ["Bundle deals"] 100 5 5 3
        ["<div>chart</div>"] ["Sales rise on weekends"]) = true := by
  decide

/-- C5: the Text Normalizer `clean` is idempotent, and its output contains
no run of two or more consecutive line breaks and no leading or trailing
whitespace. -/
theorem clean_idempotent_normalized (x : String) :
    clean (clean x) = clean x ∧
    noDoubleNLb (clean x).data = true ∧
    noEdgeWS (clean x).data = true := by
  refine ⟨?_, ?_, ?_⟩
  · exact congrArg (fun l => (⟨l⟩ : String)) (cleanL_idem x.data)
  · exact noDoubleNLb_pyStrip _ (noDoubleNLb_collapseNL x.data)
  · unfold noEdgeWS
    rw [Bool.and_eq_true]
    constructor
    · cases hh : (clean x).data.head? with
      | none => rfl
      | some c =>
        simp [pyStrip_head_not_space (collapseNL x.data) c hh]
    · cases hh : (clean x).data.getLast? with
      | none => rfl
      | some c =>
        simp [pyStrip_last_not_space (collapseNL x.data) c hh]

/-- C6: while a list section is current, any line beginning with a bullet
marker appends exactly one entry, the line stripped of markers and
surrounding whitespace (first conjunct, the code's
`line.strip("-•* ").strip()`); consequently one well-formed block per label
with N bullet lines per list label parses to exactly those N entries per
list section, in order, stripped (second conjunct). -/
theorem bullet_lines_append_entries :
    (∀ (st : ParseState) (rawLine : List Char) (k : SectionKey),
      st.current = some k → isListKey k = true →
      startsWithBullet (pyStrip rawLine) = true →
      parseStep st rawLine = .ok (appendEntry st k (stripEntry (pyStrip rawLine)))) ∧
    (∀ (ov dm : List Char) (es ls as2 : List (Char × List Char)),
      goodFree ov = true → goodFree dm = true →
      (∀ p ∈ es, goodPair p = true) → (∀ p ∈ ls, goodPair p = true) →
      (∀ p ∈ as2, goodPair p = true) →
      parse (scenarioInput ov dm es ls as2) =
        .ok ⟨⟨' ' :: ov⟩, ⟨' ' :: dm⟩,
          es.map (fun p => (⟨p.2⟩ : String)),
          ls.map (fun p => (⟨p.2⟩ : String)),
          as2.map (fun p => (⟨p.2⟩ : String))⟩) :=
  ⟨parseStep_bullet, parse_scenario⟩

/-- C6 witness: a concrete five-block response using all three bullet
markers parses to the expected sections. -/
theorem bullet_lines_append_entries_witness :
    parse (scenarioInput "Sales data.".data "Retail.".data
      [('-', "alpha".data), ('•', "beta".data), ('*', "gamma".data)]
      [('-', "delta".data)]
      [('•', "epsilon".data), ('*', "zeta".data)]) =
    .ok ⟨" Sales data.", " Retail.", ["alpha", "beta", "gamma"], ["delta"],
      ["epsilon", "zeta"]⟩ :=
  bullet_lines_append_entries.2 "Sales data.".data "Retail.".data
    [('-', "alpha".data), ('•', "beta".data), ('*', "gamma".data)]
    [('-', "delta".data)]
    [('•', "epsilon".data), ('*', "zeta".data)]
    (by decide) (by decide) (by decide) (by decide) (by decide)

/-- C7: lines before any recognized header are silently dropped (first
conjunct: with no current section, any non-header line leaves the state
unchanged); the parser returns all-default sections on empty input and on a
bullet line with no preceding header. -/
theorem preheader_lines_dropped :
    (∀ (st : ParseState) (rawLine : List Char), st.current = none →
      isHeaderB (pyStrip rawLine) = false → parseStep st rawLine = .ok st) ∧
    parse "" = .ok defaultNS ∧
    parse "- hello" = .ok defaultNS :=
  ⟨parseStep_noCurrent, rfl, rfl⟩

/-- C7 witness: a concrete stray line before any header is dropped. -/
theorem preheader_lines_dropped_witness :
    parseStep initState ("stray text".data) = .ok initState :=
  preheader_lines_dropped.1 initState ("stray text".data) rfl (by decide)

/-- C8: the Model Client makes at most 3 network calls; if all three fail it
returns empty text; if an attempt succeeds it returns that attempt's
generated text, with `Option.getD ""` yielding empty text when the JSON
reply has no "response" field.  (The absence of backoff is temporal and the
embedding is untimed; the loop body contains no delay.) -/
theorem llama_retry_behavior (oracle : Nat → AttemptResult) :
    llamaCalls oracle ≤ 3 ∧
    (oracle 0 = .fail → oracle 1 = .fail → oracle 2 = .fail →
      llama oracle = "") ∧
    (∀ resp, oracle 0 = .ok resp → llama oracle = resp.getD "") ∧
    (∀ resp, oracle 0 = .fail → oracle 1 = .ok resp →
      llama oracle = resp.getD "") ∧
    (∀ resp, oracle 0 = .fail → oracle 1 = .fail → oracle 2 = .ok resp →
      llama oracle = resp.getD "") := by
  refine ⟨?_, ?_, ?_, ?_, ?_⟩
  · cases h0 : oracle 0 with
    | ok r => simp [llamaCalls, llamaLoop, h0]
    | fail =>
      cases h1 : oracle 1 with
      | ok r => simp [llamaCalls, llamaLoop, h0, h1]
      | fail =>
        cases h2 : oracle 2 with
        | ok r => simp [llamaCalls, llamaLoop, h0, h1, h2]
        | fail => simp [llamaCalls, llamaLoop, h0, h1, h2]
  · intro h0 h1 h2
    simp [llama, llamaLoop, h0, h1, h2]
  · intro resp h0
    simp [llama, llamaLoop, h0]
  · intro resp h0 h1
    simp [llama, llamaLoop, h0, h1]
  · intro resp h0 h1 h2
    simp [llama, llamaLoop, h0, h1, h2]

/-- C8 witness: an endpoint that fails once and then answers "hi" makes at
most 3 calls and returns "hi". -/
theorem llama_retry_behavior_witness :
    llamaCalls (fun n => if n = 0 then .fail else .ok (some "hi")) ≤ 3 ∧
    llama (fun n => if n = 0 then .fail else .ok (some "hi")) = "hi" :=
  ⟨(llama_retry_behavior _).1,
   (llama_retry_behavior (fun n => if n = 0 then .fail else .ok (some "hi"))).2.2.2.1
     (some "hi") rfl rfl⟩

/-- C9: the Statistics Summarizer is a total function of the dataset: on
zero rows it returns zero counts for any column count; two identical rows
give duplicate count 1; and in general the duplicate count equals the
number of rows exactly duplicating an earlier row (first occurrence not
counted). -/
theorem summarize_total_and_dup_spec :
    (∀ (names : List String) (types : List ColType),
      summarize ⟨names, types, []⟩ = ⟨0, names.length, 0, 0⟩) ∧
    (∀ (names : List String) (types : List ColType) (r : List (Option String)),
      (summarize ⟨names, types, [r, r]⟩).duplicates = 1) ∧
    (∀ df : DataFrame, (summarize df).duplicates = specDupCount df.rows) := by
  refine ⟨fun names types => rfl, fun names types r => ?_, fun df =>
    dupCount_eq_specDupCount df.rows⟩
  show dupCount [r, r] = 1
  simp [dupCount, dupCountAux]

/-- C10: the free-text accumulation `sections[current] += " " + line`
prepends the separating space before every line, including the first one
onto the initially empty value (first conjunct); hence in every successful
parse a free-text section is either empty or begins with a space character
(second conjunct), and a concrete OVERVIEW with one content line parses to
`" Hello"` (third conjunct). -/
theorem freetext_leading_space :
    (∀ (st : ParseState) (rawLine : List Char) (k : SectionKey),
      st.current = some k → isListKey k = false →
      startsWithBullet (pyStrip rawLine) = false →
      isHeaderB (pyStrip rawLine) = false →
      parseStep st rawLine = .ok (appendFree st k (pyStrip rawLine))) ∧
    (∀ (raw : String) (ns : NarrativeSections), parse raw = .ok ns →
      (ns.overview = "" ∨ ns.overview.data.head? = some ' ') ∧
      (ns.domain = "" ∨ ns.domain.data.head? = some ' ')) ∧
    parse "OVERVIEW:\nHello" = .ok ⟨" Hello", "", [], [], []⟩ :=
  ⟨parseStep_free, parse_spaceOK, rfl⟩

/-- C10 witness: stepping a concrete content line in a free-text section
appends a space then the line. -/
theorem freetext_leading_space_witness :
    parseStep (⟨[], [], [], [], [], some .overview⟩ : ParseState) ("Hi".data) =
      .ok ⟨" Hi".data, [], [], [], [], some .overview⟩ :=
  freetext_leading_space.1 (⟨[], [], [], [], [], some .overview⟩ : ParseState)
    ("Hi".data) .overview rfl rfl (by decide) (by decide)

end AutoInsight
